import Mathlib

/-!
Verification of the boa JavaScript-engine front end: a shallow embedding of
the reserved-word catalogue (`syntax/ast/keyword.rs`), the runtime property
descriptor (`builtins/property.rs`), and the recursive-descent parsers for
object initializers (`syntax/parser/expression/primary/object_initializer/mod.rs`)
and variable declaration lists (`syntax/parser/statement/variable.rs`).

Components of the repository that the four source files call but whose code
is not part of the repository snapshot (the cursor primitives, the interner,
the `ParseError` type, `FormalParameters`, `FunctionBody`,
`AssignmentExpression`, and the runtime `Value` type) are modelled from the
specification; each such definition carries a doc comment starting with
`Modelled from the spec:`.
-/

namespace Boa

/-- Keyword enumeration from `syntax/ast/keyword.rs`: the 36 reserved words. -/
inductive Keyword where
  | Await
  | Break
  | Case
  | Catch
  | Class
  | Continue
  | Const
  | Debugger
  | Default
  | Delete
  | Do
  | Else
  | Enum
  | Export
  | Extends
  | Finally
  | For
  | Function
  | If
  | In
  | InstanceOf
  | Import
  | Let
  | New
  | Return
  | Super
  | Switch
  | This
  | Throw
  | Try
  | TypeOf
  | Var
  | Void
  | While
  | With
  | Yield
deriving DecidableEq, Repr

/-- Error type `KeywordError` from `syntax/ast/keyword.rs`. -/
inductive KeywordError where
  | mk
deriving DecidableEq, Repr

/-- Translation of `impl FromStr for Keyword` (`Keyword::from_str`):
exact case-sensitive match against the 36 reserved words, `KeywordError`
otherwise. -/
def Keyword.from_str (s : String) : Except KeywordError Keyword :=
  match s with
  | "await" => .ok .Await
  | "break" => .ok .Break
  | "case" => .ok .Case
  | "catch" => .ok .Catch
  | "class" => .ok .Class
  | "continue" => .ok .Continue
  | "const" => .ok .Const
  | "debugger" => .ok .Debugger
  | "default" => .ok .Default
  | "delete" => .ok .Delete
  | "do" => .ok .Do
  | "else" => .ok .Else
  | "enum" => .ok .Enum
  | "extends" => .ok .Extends
  | "export" => .ok .Export
  | "finally" => .ok .Finally
  | "for" => .ok .For
  | "function" => .ok .Function
  | "if" => .ok .If
  | "in" => .ok .In
  | "instanceof" => .ok .InstanceOf
  | "import" => .ok .Import
  | "let" => .ok .Let
  | "new" => .ok .New
  | "return" => .ok .Return
  | "super" => .ok .Super
  | "switch" => .ok .Switch
  | "this" => .ok .This
  | "throw" => .ok .Throw
  | "try" => .ok .Try
  | "typeof" => .ok .TypeOf
  | "var" => .ok .Var
  | "void" => .ok .Void
  | "while" => .ok .While
  | "with" => .ok .With
  | "yield" => .ok .Yield
  | _ => .error .mk

/-- Translation of `impl Display for Keyword`: the rendered lowercase string. -/
def Keyword.toDisplayString : Keyword → String
  | .Await => "await"
  | .Break => "break"
  | .Case => "case"
  | .Catch => "catch"
  | .Class => "class"
  | .Continue => "continue"
  | .Const => "const"
  | .Debugger => "debugger"
  | .Default => "default"
  | .Delete => "delete"
  | .Do => "do"
  | .Else => "else"
  | .Enum => "enum"
  | .Extends => "extends"
  | .Export => "export"
  | .Finally => "finally"
  | .For => "for"
  | .Function => "function"
  | .If => "if"
  | .In => "in"
  | .InstanceOf => "instanceof"
  | .Import => "import"
  | .Let => "let"
  | .New => "new"
  | .Return => "return"
  | .Super => "super"
  | .Switch => "switch"
  | .This => "this"
  | .Throw => "throw"
  | .Try => "try"
  | .TypeOf => "typeof"
  | .Var => "var"
  | .Void => "void"
  | .While => "while"
  | .With => "with"
  | .Yield => "yield"

/-- Set of the 36 reserved-word strings, as listed in the spec's keyword
catalogue and matched by `Keyword::from_str`. -/
def keywordStrings : List String :=
  ["await", "break", "case", "catch", "class", "continue", "const",
   "debugger", "default", "delete", "do", "else", "enum", "extends",
   "export", "finally", "for", "function", "if", "in", "instanceof",
   "import", "let", "new", "return", "super", "switch", "this", "throw",
   "try", "typeof", "var", "void", "while", "with", "yield"]

/-- Modelled from the spec: the runtime value model is an external
collaborator of the four source files ("the runtime value model ... treated
only as the AST's output consumers"); `builtins/property.rs` uses only field
lookup (`get_field_slice`) and boolean conversion (`from_value::<bool>`).
A value is `undefined`, a boolean, or an object with a field map; any field
may be present or absent. -/
inductive Value where
  | undefined
  | boolean (b : Bool)
  | object (fields : List (String × Value))

/-- Modelled from the spec: field access `Value::get_field_slice`, returning
the field's value when present and `undefined` when the field is absent or
the receiver is not an object. -/
def Value.get_field_slice (v : Value) (name : String) : Value :=
  match v with
  | .object fields =>
    match fields.lookup name with
    | some w => w
    | none => .undefined
  | _ => .undefined

/-- Modelled from the spec: the conversion `from_value::<bool>` used by
`Property::from_value`; a boolean converts to itself, anything else (in
particular `undefined`, i.e. an absent field) fails. -/
def from_value_bool (v : Value) : Except String Bool :=
  match v with
  | .boolean b => .ok b
  | _ => .error "expected boolean"

/-- Translation of `struct Property` from `builtins/property.rs`: the runtime
property descriptor; every field may be present (`some`) or absent (`none`). -/
structure Property where
  configurable : Option Bool
  enumerable : Option Bool
  writable : Option Bool
  value : Option Value
  get : Option Value
  set : Option Value

/-- Translation of `Property::new`: all six fields absent. -/
def Property.new : Property :=
  { configurable := none, enumerable := none, writable := none,
    value := none, get := none, set := none }

/-- Translation of `Property::is_none`: true when `get`, `set`, `writable`,
`configurable` and `enumerable` are all absent (the `value` field is not
consulted). -/
def Property.is_none (p : Property) : Bool :=
  p.get.isNone && p.set.isNone && p.writable.isNone
    && p.configurable.isNone && p.enumerable.isNone

/-- Translation of `Property::is_accessor_descriptor`: `get` or `set` is
present. -/
def Property.is_accessor_descriptor (p : Property) : Bool :=
  p.get.isSome || p.set.isSome

/-- Translation of `Property::is_data_descriptor`: `value` or `writable` is
present. -/
def Property.is_data_descriptor (p : Property) : Bool :=
  p.value.isSome || p.writable.isSome

/-- Translation of `Property::is_generic_descriptor`: neither accessor nor
data. -/
def Property.is_generic_descriptor (p : Property) : Bool :=
  !p.is_accessor_descriptor && !p.is_data_descriptor

/-- Translation of `impl FromValue for Property` (`Property::from_value`):
fetch `configurable`, `enumerable`, `writable` from the value, defaulting to
`false` when the fetch fails; `value`, `get` and `set` are populated
unconditionally with the corresponding field slices. -/
def Property.from_value (v : Value) : Except String Property :=
  .ok
    { configurable :=
        match from_value_bool (v.get_field_slice "configurable") with
        | .ok b => some b
        | .error _ => some false,
      enumerable :=
        match from_value_bool (v.get_field_slice "enumerable") with
        | .ok b => some b
        | .error _ => some false,
      writable :=
        match from_value_bool (v.get_field_slice "writable") with
        | .ok b => some b
        | .error _ => some false,
      value := some (v.get_field_slice "value"),
      get := some (v.get_field_slice "get"),
      set := some (v.get_field_slice "set") }

/-- Modelled from the spec: interned symbols are compact integer handles. -/
abbrev Sym := Nat

/-- Modelled from the spec: a source position; the fragments carry point
positions (line, column). -/
structure Position where
  line : Nat
  column : Nat
deriving DecidableEq, Repr

/-- Modelled from the spec: punctuator kinds used by the embedded
productions (a subset of the token model's punctuator catalogue). -/
inductive Punctuator where
  | OpenBlock
  | CloseBlock
  | OpenParen
  | CloseParen
  | Comma
  | Colon
  | Semicolon
  | Spread
  | Assign
deriving DecidableEq, Repr

/-- Modelled from the spec: the rendering of each punctuator, used when
building expected-sets for diagnostics (`Punctuator::to_string`). -/
def Punctuator.toDisplayString : Punctuator → String
  | .OpenBlock => "\x7b"
  | .CloseBlock => "\x7d"
  | .OpenParen => "("
  | .CloseParen => ")"
  | .Comma => ","
  | .Colon => ":"
  | .Semicolon => ";"
  | .Spread => "..."
  | .Assign => "="

/-- Modelled from the spec: token kinds (a closed set); identifiers and
string literals carry their text, numeric literals a numeric payload
(abstracted to `Int` here; the claims never inspect the number itself). -/
inductive TokenKind where
  | Keyword (k : Keyword)
  | Punctuator (p : Punctuator)
  | Identifier (name : String)
  | StringLiteral (s : String)
  | NumericLiteral (n : Int)
  | LineTerminator
  | EOF
deriving DecidableEq, Repr

/-- Modelled from the spec: the helper `TokenKind::identifier` used when
building the expected-set of a "variable declaration" diagnostic. -/
def TokenKind.identifier (name : String) : TokenKind :=
  .Identifier name

/-- Modelled from the spec: a token is a kind plus a source position. -/
structure Token where
  kind : TokenKind
  pos : Position
deriving DecidableEq, Repr

/-- Modelled from the spec: the display form of a token (`Token::display`);
tokens carry their text directly in this embedding, so no interner argument
is needed. -/
def Token.display (t : Token) : String :=
  match t.kind with
  | .Keyword k => k.toDisplayString
  | .Punctuator p => p.toDisplayString
  | .Identifier name => name
  | .StringLiteral s => s
  | .NumericLiteral n => toString n
  | .LineTerminator => "line terminator"
  | .EOF => "end of file"

/-- Modelled from the spec: the string interner, a bidirectional
string/symbol table; symbols are indices into the stored list. -/
structure Interner where
  strings : List String
deriving DecidableEq, Repr

/-- Modelled from the spec: `Interner::get_or_intern` returns the existing
symbol when the string has been seen, otherwise allocates the next index. -/
def Interner.get_or_intern (itn : Interner) (s : String) : Sym × Interner :=
  match itn.strings.indexOf? s with
  | some i => (i, itn)
  | none => (itn.strings.length, ⟨itn.strings ++ [s]⟩)

/-- Modelled from the spec: `Interner::resolve`, constant-time lookup of a
symbol's string. -/
def Interner.resolve (itn : Interner) (sym : Sym) : Option String :=
  itn.strings.get? sym

/-- Modelled from the spec: `Token::to_string_sym` interns the token's
display form and returns the symbol together with the updated interner. -/
def Token.to_string_sym (t : Token) (itn : Interner) : Sym × Interner :=
  itn.get_or_intern t.display

/-- Modelled from the spec: the `ParseError` taxonomy of §3/§7.  The raw
`Expected` variant (kind list, found token, context) is the shape built
directly in `variable.rs`; `ExpectedStr` is the shape built by the
`ParseError::expected` constructor used in the object-initializer file
(rendered strings plus a position).  `Panic` models a Rust `.expect(...)`
panic — reached only on states the source asserts impossible. -/
inductive ParseError where
  | AbruptEnd
  | Expected (expected : List TokenKind) (found : Token) (context : String)
  | ExpectedStr (expected : List String) (found : String) (pos : Position)
      (context : String)
  | Unexpected (found : String) (pos : Position) (hint : Option String)
  | General (message : String) (pos : Position)
  | Panic (message : String)
deriving DecidableEq, Repr

/-- Modelled from the spec: `ParseError::expected`, the constructor taking
rendered strings, the found token's display, its position and a context. -/
def ParseError.expected (expected : List String) (found : String)
    (pos : Position) (context : String) : ParseError :=
  .ExpectedStr expected found pos context

/-- Modelled from the spec: `ParseError::unexpected`. -/
def ParseError.unexpected (found : String) (pos : Position)
    (hint : Option String) : ParseError :=
  .Unexpected found pos hint

/-- Modelled from the spec: `ParseError::general`. -/
def ParseError.general (message : String) (pos : Position) : ParseError :=
  .General message pos

/-- Modelled from the spec: `Cursor::next_if` — consume and return the next
token iff its kind matches, otherwise do not advance.  The cursor is
embedded as the list of not-yet-consumed tokens. -/
def next_if (k : TokenKind) (ts : List Token) : Option (Token × List Token) :=
  match ts with
  | [] => none
  | t :: rest => if t.kind = k then some (t, rest) else none

/-- Modelled from the spec: `Cursor::expect` — consume one token iff it has
the wanted kind, otherwise an `Expected` error with a singleton
expected-set; `AbruptEnd` at end of input. -/
def expect (k : TokenKind) (context : String) (ts : List Token) :
    Except ParseError (List Token) :=
  match ts with
  | [] => .error .AbruptEnd
  | t :: rest =>
    if t.kind = k then .ok rest else .error (.Expected [k] t context)

/-- Modelled from the spec: `Cursor::peek_semicolon` — a semicolon is
present or insertable when the next token is a literal `;`, or a `\x7d`,
or at end of input, or (when `allowNewline`) a line terminator. -/
def peek_semicolon (allowNewline : Bool) (ts : List Token) :
    Bool × Option Token :=
  match ts with
  | [] => (true, none)
  | t :: _ =>
    match t.kind with
    | .Punctuator .Semicolon => (true, some t)
    | .Punctuator .CloseBlock => (true, some t)
    | .LineTerminator => (allowNewline, some t)
    | _ => (false, some t)

/-- Method definition kinds, as listed in the spec's AST data model. -/
inductive MethodDefinitionKind where
  | Ordinary
  | Get
  | Set
  | Generator
  | Async
  | AsyncGenerator
deriving DecidableEq, Repr

/-- Modelled from the spec: a formal parameter record; the embedded claims
only ever count parameters, so only the name is kept. -/
structure FormalParameter where
  name : String
deriving DecidableEq, Repr

mutual

/-- AST nodes (the spec's closed variant set, restricted to the variants the
four source files construct: `Object`, `FunctionDecl`, `StatementList`,
`VarDecl`, plus the literal/identifier outputs of the modelled expression
parser). -/
inductive Node where
  | Object (props : List PropertyDefinition)
  | FunctionDecl (name : Option Sym) (params : List FormalParameter)
      (body : Node)
  | StatementList (stmts : List Node)
  | VarDecl (decls : List (String × Option Node))
  | ConstNum (n : Int)
  | ConstStr (s : String)
  | Local (name : String)

/-- Property definition variants from the spec's AST data model
(`node::PropertyDefinition`). -/
inductive PropertyDefinition where
  | Property (name : Sym) (value : Node)
  | MethodDefinition (kind : MethodDefinitionKind) (name : Sym) (func : Node)
  | SpreadObject (node : Node)

end

/-- Modelled from the spec: `AssignmentExpression` (§4.3.5), restricted to
single-token primary expressions — numeric literals, string literals and
identifiers; the claims about the surrounding productions never inspect a
compound expression.  The three grammar-parameter flags are carried as in
the source but select nothing in this restricted grammar. -/
def assignmentExpression (_allowIn _allowYield _allowAwait : Bool)
    (ts : List Token) (itn : Interner) :
    Except ParseError (Node × List Token × Interner) :=
  match ts with
  | [] => .error .AbruptEnd
  | t :: rest =>
    match t.kind with
    | .NumericLiteral n => .ok (.ConstNum n, rest, itn)
    | .StringLiteral s => .ok (.ConstStr s, rest, itn)
    | .Identifier name => .ok (.Local name, rest, itn)
    | _ => .error (.general "expected expression" t.pos)

/-- Modelled from the spec: the comma-separated tail of `FormalParameters`
(names only); stops, without consuming, at the first token that is not a
`,` after a parameter. -/
def formalParametersLoop (fuel : Nat) (ts : List Token) (itn : Interner)
    (acc : List FormalParameter) :
    Except ParseError (List FormalParameter × List Token × Interner) :=
  match fuel with
  | 0 => .error .AbruptEnd
  | fuel + 1 =>
    match ts with
    | [] => .error .AbruptEnd
    | t :: rest =>
      match t.kind with
      | .Identifier name =>
        let acc' := acc ++ [⟨name⟩]
        (match next_if (.Punctuator .Comma) rest with
         | some (_, rest') => formalParametersLoop fuel rest' itn acc'
         | none => .ok (acc', rest, itn))
      | _ =>
        .error (.Expected [TokenKind.identifier "identifier"] t
          "formal parameter")

/-- Modelled from the spec: `FormalParameters::parse` — an immediately
following `)` yields the empty list (the `)` is left for the caller to
consume); otherwise one or more comma-separated parameter names. -/
def formalParametersParse (ts : List Token) (itn : Interner) :
    Except ParseError (List FormalParameter × List Token × Interner) :=
  match ts with
  | [] => .error .AbruptEnd
  | t :: _ =>
    if t.kind = .Punctuator .CloseParen then .ok ([], ts, itn)
    else formalParametersLoop (ts.length + 1) ts itn []

/-- Modelled from the spec: `FunctionBody::parse` — a `StatementList` up to
(not including) the matching `\x7d`, restricted to expression statements
built from `assignmentExpression` with an optional `;` after each. -/
def functionBodyLoop (fuel : Nat) (ts : List Token) (itn : Interner) :
    Except ParseError (List Node × List Token × Interner) :=
  match fuel with
  | 0 => .error .AbruptEnd
  | fuel + 1 =>
    match ts with
    | [] => .error .AbruptEnd
    | t :: _ =>
      if t.kind = .Punctuator .CloseBlock then .ok ([], ts, itn)
      else
        match assignmentExpression true false false ts itn with
        | .error e => .error e
        | .ok (n, ts1, itn1) =>
          let ts2 :=
            match next_if (.Punctuator .Semicolon) ts1 with
            | some (_, r) => r
            | none => ts1
          match functionBodyLoop fuel ts2 itn1 with
          | .error e => .error e
          | .ok (stmts, ts3, itn3) => .ok (n :: stmts, ts3, itn3)

/-- Modelled from the spec: `FunctionBody::parse` entry point. -/
def functionBodyParse (ts : List Token) (itn : Interner) :
    Except ParseError (List Node × List Token × Interner) :=
  functionBodyLoop (ts.length + 1) ts itn

/-- Translation of the code shared by every arm of
`MethodDefinition::parse` after the `(methodkind, prop_name, params)`
tuple is known: require `\x7b`, parse a `FunctionBody` wrapped as a
`StatementList`, require `\x7d`, and emit the
`PropertyDefinition::MethodDefinition` node around
`FunctionDecl(None, params, body)`. -/
def methodDefinitionTail (kind : MethodDefinitionKind) (name : Sym)
    (params : List FormalParameter) (ts : List Token) (itn : Interner) :
    Except ParseError (PropertyDefinition × List Token × Interner) :=
  match expect (.Punctuator .OpenBlock) "property method definition" ts with
  | .error e => .error e
  | .ok ts1 =>
    match functionBodyParse ts1 itn with
    | .error e => .error e
    | .ok (stmts, ts2, itn2) =>
      let body := Node.StatementList stmts
      match expect (.Punctuator .CloseBlock) "property method definition"
          ts2 with
      | .error e => .error e
      | .ok ts3 =>
        .ok (.MethodDefinition kind name (.FunctionDecl none params body),
          ts3, itn2)

/-- Translation of `MethodDefinition::parse` from the object-initializer
file.  The identifier hint is resolved: on `"get"`/`"set"` the real property
name is consumed, `(` is required, the formal parameters are parsed (with
the token at the head of the stream remembered as `first_param`), `)` is
required, and the getter/setter arity is enforced; any other hint is itself
the property name and its `(` was already consumed by the caller. -/
def methodDefinition (ident : Sym) (ts : List Token) (itn : Interner) :
    Except ParseError (PropertyDefinition × List Token × Interner) :=
  match itn.resolve ident with
  | none => .error (.Panic "identifier string disappeared")
  | some idn =>
    if idn = "get" ∨ idn = "set" then
      match ts with
      | [] => .error .AbruptEnd
      | nameTok :: rest =>
        let (prop_name, itn1) := nameTok.to_string_sym itn
        match expect (.Punctuator .OpenParen) "property method definition"
            rest with
        | .error e => .error e
        | .ok rest1 =>
          match rest1.head? with
          | none => .error (.Panic "current token disappeared")
          | some first_param =>
            match formalParametersParse rest1 itn1 with
            | .error e => .error e
            | .ok (params, rest2, itn2) =>
              match expect (.Punctuator .CloseParen) "method definition"
                  rest2 with
              | .error e => .error e
              | .ok rest3 =>
                if idn = "get" then
                  if params.isEmpty then
                    methodDefinitionTail .Get prop_name params rest3 itn2
                  else
                    .error (.unexpected first_param.display first_param.pos
                      (some "getter functions must have no arguments"))
                else
                  if params.length = 1 then
                    methodDefinitionTail .Set prop_name params rest3 itn2
                  else
                    .error (.unexpected first_param.display first_param.pos
                      (some "setter functions must have one argument"))
    else
      match formalParametersParse ts itn with
      | .error e => .error e
      | .ok (params, ts1, itn1) =>
        match expect (.Punctuator .CloseParen) "method definition" ts1 with
        | .error e => .error e
        | .ok ts2 => methodDefinitionTail .Ordinary ident params ts2 itn1

/-- Translation of `PropertyDefinition::parse` from the object-initializer
file: a `...` spread, or a tentative property name followed by `:` and a
value, or dispatch to `MethodDefinition` when a `(` follows (consumed here)
or when the tentative name's symbol is the interned `"get"` or `"set"`
(evaluated in that order, with Rust's short-circuit semantics), otherwise
the `general` "expected property definition" error at the position of the
next token. -/
def propertyDefinitionParse (ay aa : Bool) (ts : List Token)
    (itn : Interner) :
    Except ParseError (PropertyDefinition × List Token × Interner) :=
  match next_if (.Punctuator .Spread) ts with
  | some (_, rest) =>
    match assignmentExpression true ay aa rest itn with
    | .error e => .error e
    | .ok (n, rest1, itn1) => .ok (.SpreadObject n, rest1, itn1)
  | none =>
    match ts with
    | [] => .error .AbruptEnd
    | tok :: rest =>
      let (prop_name, itn1) := tok.to_string_sym itn
      match next_if (.Punctuator .Colon) rest with
      | some (_, rest1) =>
        match assignmentExpression true ay aa rest1 itn1 with
        | .error e => .error e
        | .ok (val, rest2, itn2) => .ok (.Property prop_name val, rest2, itn2)
      | none =>
        match next_if (.Punctuator .OpenParen) rest with
        | some (_, rest1) => methodDefinition prop_name rest1 itn1
        | none =>
          let (gsym, itn2) := itn1.get_or_intern "get"
          if prop_name = gsym then methodDefinition prop_name rest itn2
          else
            let (ssym, itn3) := itn2.get_or_intern "set"
            if prop_name = ssym then methodDefinition prop_name rest itn3
            else
              match rest.head? with
              | some t => .error (.general "expected property definition" t.pos)
              | none => .error .AbruptEnd

/-- Translation of the loop body of `ObjectLiteral::parse`: stop at `\x7d`
(before or after a property definition), parse a `PropertyDefinition`, and
after it demand `,` or `\x7d` — otherwise the `ParseError::expected` error
with expected set `[",", "\x7d"]`, the offending token's display and
position, and context "object literal".  Recursion is fuelled; the wrapper
`objectLiteralParse` supplies more fuel than the loop can consume. -/
def objectLiteralLoop (fuel : Nat) (ay aa : Bool) (ts : List Token)
    (itn : Interner) (elements : List PropertyDefinition) :
    Except ParseError (Node × List Token × Interner) :=
  match fuel with
  | 0 => .error .AbruptEnd
  | fuel + 1 =>
    match next_if (.Punctuator .CloseBlock) ts with
    | some (_, rest) => .ok (.Object elements, rest, itn)
    | none =>
      match propertyDefinitionParse ay aa ts itn with
      | .error e => .error e
      | .ok (pd, ts1, itn1) =>
        let elements' := elements ++ [pd]
        match next_if (.Punctuator .CloseBlock) ts1 with
        | some (_, rest) => .ok (.Object elements', rest, itn1)
        | none =>
          match next_if (.Punctuator .Comma) ts1 with
          | some (_, rest) => objectLiteralLoop fuel ay aa rest itn1 elements'
          | none =>
            match ts1 with
            | [] => .error .AbruptEnd
            | t :: _ =>
              .error (.expected
                [Punctuator.Comma.toDisplayString,
                 Punctuator.CloseBlock.toDisplayString]
                t.display t.pos "object literal")

/-- Translation of `ObjectLiteral::parse` (entered with the opening `\x7b`
already consumed by the caller): run the loop starting from an empty
element list. -/
def objectLiteralParse (ay aa : Bool) (ts : List Token) (itn : Interner) :
    Except ParseError (Node × List Token × Interner) :=
  objectLiteralLoop (ts.length + 1) ay aa ts itn []

/-- Translation of `Initializer::parse`: require `=`, then delegate to
`AssignmentExpression` with the inherited flags. -/
def initializerParse (allowIn ay aa : Bool) (ts : List Token)
    (itn : Interner) : Except ParseError (Node × List Token × Interner) :=
  match expect (.Punctuator .Assign) "initializer" ts with
  | .error e => .error e
  | .ok ts1 => assignmentExpression allowIn ay aa ts1 itn

/-- Translation of `VariableDeclaration::parse` from `variable.rs`: the
next token must be an identifier (else `Expected` with the identifier
descriptor and context "variable declaration"); when the following token is
`=`, an `Initializer` is parsed (the `=` is consumed by the initializer
itself — the lookahead only peeks). -/
def variableDeclarationParse (allowIn ay aa : Bool) (ts : List Token)
    (itn : Interner) :
    Except ParseError ((String × Option Node) × List Token × Interner) :=
  match ts with
  | [] => .error .AbruptEnd
  | tok :: rest =>
    match tok.kind with
    | .Identifier name =>
      match rest.head? with
      | some tk =>
        if tk.kind = .Punctuator .Assign then
          match initializerParse allowIn ay aa rest itn with
          | .error e => .error e
          | .ok (n, rest1, itn1) => .ok ((name, some n), rest1, itn1)
        else .ok ((name, none), rest, itn)
      | none => .ok ((name, none), rest, itn)
    | _ =>
      .error (.Expected [TokenKind.identifier "identifier"] tok
        "variable declaration")

/-- Translation of the loop body of `VariableDeclarationList::parse`: parse
one `VariableDeclaration`, then consult `peek_semicolon(false)`: a present
or insertable semicolon stops the list; a comma is consumed and the loop
continues; any other token produces
`ParseError::Expected([Semicolon, LineTerminator], token, "lexical
declaration")` (`AbruptEnd` when no token can be taken).  Recursion is
fuelled; the wrapper `variableDeclarationListParse` supplies more fuel than
the loop can consume. -/
def variableDeclarationListLoop (fuel : Nat) (allowIn ay aa : Bool)
    (ts : List Token) (itn : Interner) (list : List (String × Option Node)) :
    Except ParseError (Node × List Token × Interner) :=
  match fuel with
  | 0 => .error .AbruptEnd
  | fuel + 1 =>
    match variableDeclarationParse allowIn ay aa ts itn with
    | .error e => .error e
    | .ok (d, ts1, itn1) =>
      let list' := list ++ [d]
      match peek_semicolon false ts1 with
      | (true, _) => .ok (.VarDecl list', ts1, itn1)
      | (false, some tk) =>
        if tk.kind = .Punctuator .Comma then
          variableDeclarationListLoop fuel allowIn ay aa ts1.tail itn1 list'
        else
          .error (.Expected [.Punctuator .Semicolon, .LineTerminator] tk
            "lexical declaration")
      | (false, none) => .error .AbruptEnd

/-- Translation of `VariableDeclarationList::parse`: run the loop starting
from an empty declaration list. -/
def variableDeclarationListParse (allowIn ay aa : Bool) (ts : List Token)
    (itn : Interner) : Except ParseError (Node × List Token × Interner) :=
  variableDeclarationListLoop (ts.length + 1) allowIn ay aa ts itn []

/-- Accessor-arity predicate on property definitions: a `Get` method carries
an empty formal-parameter list, a `Set` method exactly one parameter (both
wrapped in `FunctionDecl(None, params, body)`); every other variant is
unconstrained. -/
def accessorArityOK : PropertyDefinition → Prop
  | .MethodDefinition .Get _ f => ∃ body, f = .FunctionDecl none [] body
  | .MethodDefinition .Set _ f => ∃ p body, f = .FunctionDecl none [p] body
  | _ => True

/-! Theorems. -/

/-- Helper: the defaulting match used for the three boolean attributes in
`Property::from_value` never produces `none`. -/
theorem from_value_defaulted_ne_none (x : Except String Bool) :
    (match x with | .ok b => some b | .error _ => some false) ≠ none := by
  cases x <;> simp

/-- C1: refuted by the code.  `Property::from_value` populates `value`,
`get` and `set` unconditionally with `Some(...)`, so every descriptor it
produces is simultaneously an accessor descriptor and a data descriptor —
for every input value, contradicting the invariant (and the source file's
own doc comment "it cannot be both"). -/
theorem from_value_always_mixed_descriptor (v : Value) :
    ∃ p, Property.from_value v = .ok p ∧
      p.is_accessor_descriptor = true ∧ p.is_data_descriptor = true :=
  ⟨_, rfl, rfl, rfl⟩

/-- C8: `Property::from_value` sets each of `configurable`, `enumerable`
and `writable` to `Some(false)` whenever the corresponding field fails to
convert to a boolean (in particular when it is absent), and never leaves
any of the three as `None`. -/
theorem from_value_defaults_missing_attributes (v : Value) (p : Property)
    (h : Property.from_value v = .ok p) :
    (p.configurable ≠ none ∧ p.enumerable ≠ none ∧ p.writable ≠ none) ∧
    ((∃ e, from_value_bool (v.get_field_slice "configurable") = .error e) →
      p.configurable = some false) ∧
    ((∃ e, from_value_bool (v.get_field_slice "enumerable") = .error e) →
      p.enumerable = some false) ∧
    ((∃ e, from_value_bool (v.get_field_slice "writable") = .error e) →
      p.writable = some false) := by
  unfold Property.from_value at h
  cases h
  refine ⟨⟨from_value_defaulted_ne_none _, from_value_defaulted_ne_none _,
    from_value_defaulted_ne_none _⟩, ?_, ?_, ?_⟩
  · rintro ⟨e, he⟩; rw [he]
  · rintro ⟨e, he⟩; rw [he]
  · rintro ⟨e, he⟩; rw [he]

/-- Witness for C8: on the empty object every boolean attribute is missing,
so all three default to `Some(false)`. -/
theorem from_value_defaults_missing_attributes_witness :
    Property.from_value (Value.object []) =
      .ok { configurable := some false, enumerable := some false,
            writable := some false, value := some .undefined,
            get := some .undefined, set := some .undefined } ∧
    ({ configurable := some false, enumerable := some false,
       writable := some false, value := some .undefined,
       get := some .undefined, set := some .undefined : Property
     }.configurable = some false ∧
     { configurable := some false, enumerable := some false,
       writable := some false, value := some .undefined,
       get := some .undefined, set := some .undefined : Property
     }.enumerable = some false ∧
     { configurable := some false, enumerable := some false,
       writable := some false, value := some .undefined,
       get := some .undefined, set := some .undefined : Property
     }.writable = some false) :=
  ⟨rfl,
    (from_value_defaults_missing_attributes (Value.object []) _ rfl).2.1
      ⟨_, rfl⟩,
    (from_value_defaults_missing_attributes (Value.object []) _ rfl).2.2.1
      ⟨_, rfl⟩,
    (from_value_defaults_missing_attributes (Value.object []) _ rfl).2.2.2
      ⟨_, rfl⟩⟩

/-- C9: `Property::is_none` is true exactly when `configurable`,
`enumerable`, `writable`, `get` and `set` are all absent; the `value` field
is not consulted, so changing it never changes the verdict. -/
theorem is_none_iff_five_fields_ignores_value (p : Property) :
    (p.is_none = true ↔
      p.configurable = none ∧ p.enumerable = none ∧ p.writable = none ∧
        p.get = none ∧ p.set = none) ∧
    (∀ v : Option Value, Property.is_none { p with value := v } = p.is_none) := by
  constructor
  · simp only [Property.is_none, Bool.and_eq_true, Option.isNone_iff_eq_none]
    tauto
  · intro v; rfl

/-- Helper: a successful `Keyword::from_str` implies membership in the
36-word catalogue. -/
theorem from_str_ok_mem (s : String) (k : Keyword)
    (h : Keyword.from_str s = .ok k) : s ∈ keywordStrings := by
  unfold Keyword.from_str at h
  split at h <;> first | exact Except.noConfusion h | decide

/-- C7: every keyword round-trips through its rendered string
(`from_str (to_string k) = Ok k`), and `from_str` rejects every string
outside the 36-word catalogue with `KeywordError`. -/
theorem keyword_round_trip_and_reject :
    (∀ k : Keyword, Keyword.from_str k.toDisplayString = .ok k) ∧
    (∀ s : String, s ∉ keywordStrings → Keyword.from_str s = .error .mk) := by
  constructor
  · intro k; cases k <;> rfl
  · intro s h
    match e : Keyword.from_str s with
    | .ok k => exact absurd (from_str_ok_mem s k e) h
    | .error err => cases err; rfl

/-- Witness for C7: "boop" is no reserved word and is rejected; "var"
round-trips. -/
theorem keyword_round_trip_and_reject_witness :
    Keyword.from_str (Keyword.toDisplayString .Var) = .ok .Var ∧
    ("boop" ∉ keywordStrings ∧ Keyword.from_str "boop" = .error .mk) :=
  ⟨keyword_round_trip_and_reject.1 .Var, by decide,
    keyword_round_trip_and_reject.2 "boop" (by decide)⟩

/-- C5 counterexample: on `var x y` the declaration list errors after `x`
with expected set `[Semicolon, LineTerminator]` and context "lexical
declaration" — the comma is not in the expected set, refuting the claim
that the set consists of the semicolon and the comma. -/
theorem var_decl_list_expected_set_counterexample :
    variableDeclarationListParse true false false
      [⟨.Identifier "x", ⟨1, 5⟩⟩, ⟨.Identifier "y", ⟨1, 7⟩⟩] ⟨[]⟩ =
      .error (.Expected [.Punctuator .Semicolon, .LineTerminator]
        ⟨.Identifier "y", ⟨1, 7⟩⟩ "lexical declaration") ∧
    TokenKind.Punctuator .Comma ∉
      [TokenKind.Punctuator .Semicolon, TokenKind.LineTerminator] :=
  ⟨rfl, by decide⟩

/-- C5 (amended): after each `VariableDeclaration` the list parser stops
when `peek_semicolon` reports a present or insertable semicolon, consumes
the comma and continues when the peeked token is a comma, and on any other
peeked token returns an `Expected` error whose expected set consists of the
semicolon and the line terminator, with context "lexical declaration". -/
theorem var_decl_list_separator_behavior (fuel : Nat) (allowIn ay aa : Bool)
    (ts ts1 : List Token) (itn itn1 : Interner) (d : String × Option Node)
    (list : List (String × Option Node)) (tk : Token)
    (hd : variableDeclarationParse allowIn ay aa ts itn = .ok (d, ts1, itn1)) :
    ((peek_semicolon false ts1).1 = true →
      variableDeclarationListLoop (fuel + 1) allowIn ay aa ts itn list =
        .ok (.VarDecl (list ++ [d]), ts1, itn1)) ∧
    (peek_semicolon false ts1 = (false, some tk) →
      tk.kind = .Punctuator .Comma →
      variableDeclarationListLoop (fuel + 1) allowIn ay aa ts itn list =
        variableDeclarationListLoop fuel allowIn ay aa ts1.tail itn1
          (list ++ [d])) ∧
    (peek_semicolon false ts1 = (false, some tk) →
      tk.kind ≠ .Punctuator .Comma →
      variableDeclarationListLoop (fuel + 1) allowIn ay aa ts itn list =
        .error (.Expected [.Punctuator .Semicolon, .LineTerminator] tk
          "lexical declaration")) := by
  refine ⟨?_, ?_, ?_⟩
  · intro h1
    simp only [variableDeclarationListLoop, hd]
    rcases hp : peek_semicolon false ts1 with ⟨b, o⟩
    rw [hp] at h1
    cases h1
    rfl
  · intro hp hk
    simp only [variableDeclarationListLoop, hd, hp]
    rw [if_pos hk]
  · intro hp hk
    simp only [variableDeclarationListLoop, hd, hp]
    rw [if_neg hk]

/-- Witness for C5 (amended): `var x ;` — after the declaration `x` the
peeked semicolon stops the list. -/
theorem var_decl_list_separator_behavior_witness :
    variableDeclarationListLoop 3 true false false
      [⟨.Identifier "x", ⟨1, 5⟩⟩, ⟨.Punctuator .Semicolon, ⟨1, 6⟩⟩] ⟨[]⟩ [] =
      .ok (.VarDecl [("x", none)], [⟨.Punctuator .Semicolon, ⟨1, 6⟩⟩], ⟨[]⟩) :=
  (var_decl_list_separator_behavior 2 true false false
    [⟨.Identifier "x", ⟨1, 5⟩⟩, ⟨.Punctuator .Semicolon, ⟨1, 6⟩⟩]
    [⟨.Punctuator .Semicolon, ⟨1, 6⟩⟩] ⟨[]⟩ ⟨[]⟩ ("x", none) []
    ⟨.Punctuator .Semicolon, ⟨1, 6⟩⟩ rfl).1 rfl

/-- C6: while parsing an object literal, after each parsed property
definition the loop stops at `\x7d`; when the following token is neither
`\x7d` nor `,` it returns the `Expected` error with expected set
`[",", "\x7d"]`, context "object literal", and the display and position
of the offending token. -/
theorem object_literal_separator_error (fuel : Nat) (ay aa : Bool)
    (ts ts1 : List Token) (itn itn1 : Interner) (pd : PropertyDefinition)
    (acc : List PropertyDefinition) (t : Token) (rest : List Token)
    (hne : next_if (.Punctuator .CloseBlock) ts = none)
    (hpd : propertyDefinitionParse ay aa ts itn = .ok (pd, ts1, itn1))
    (hts1 : ts1 = t :: rest) :
    (t.kind = .Punctuator .CloseBlock →
      objectLiteralLoop (fuel + 1) ay aa ts itn acc =
        .ok (.Object (acc ++ [pd]), rest, itn1)) ∧
    (t.kind ≠ .Punctuator .CloseBlock → t.kind ≠ .Punctuator .Comma →
      objectLiteralLoop (fuel + 1) ay aa ts itn acc =
        .error (.ExpectedStr [",", "\x7d"] t.display t.pos
          "object literal")) := by
  subst hts1
  constructor
  · intro h1
    simp only [objectLiteralLoop, hne, hpd]
    simp only [next_if]
    rw [if_pos h1]
  · intro h1 h2
    simp only [objectLiteralLoop, hne, hpd]
    simp only [next_if]
    rw [if_neg h1, if_neg h2]
    rfl

/-- Witness for C6: `( \x7b a: 1 b: 2 \x7d )` — after the property `a: 1`
the offending token `b` produces `Expected ["," , "\x7d"]` at `b`'s
position with context "object literal". -/
theorem object_literal_separator_error_witness :
    objectLiteralLoop 1 false false
      [⟨.Identifier "a", ⟨1, 4⟩⟩, ⟨.Punctuator .Colon, ⟨1, 5⟩⟩,
       ⟨.NumericLiteral 1, ⟨1, 7⟩⟩, ⟨.Identifier "b", ⟨1, 9⟩⟩,
       ⟨.Punctuator .Colon, ⟨1, 10⟩⟩, ⟨.NumericLiteral 2, ⟨1, 12⟩⟩,
       ⟨.Punctuator .CloseBlock, ⟨1, 14⟩⟩] ⟨[]⟩ [] =
      .error (.ExpectedStr [",", "\x7d"] "b" ⟨1, 9⟩ "object literal") :=
  (object_literal_separator_error 0 false false
    [⟨.Identifier "a", ⟨1, 4⟩⟩, ⟨.Punctuator .Colon, ⟨1, 5⟩⟩,
     ⟨.NumericLiteral 1, ⟨1, 7⟩⟩, ⟨.Identifier "b", ⟨1, 9⟩⟩,
     ⟨.Punctuator .Colon, ⟨1, 10⟩⟩, ⟨.NumericLiteral 2, ⟨1, 12⟩⟩,
     ⟨.Punctuator .CloseBlock, ⟨1, 14⟩⟩]
    [⟨.Identifier "b", ⟨1, 9⟩⟩, ⟨.Punctuator .Colon, ⟨1, 10⟩⟩,
     ⟨.NumericLiteral 2, ⟨1, 12⟩⟩, ⟨.Punctuator .CloseBlock, ⟨1, 14⟩⟩]
    ⟨[]⟩ ⟨["a"]⟩ (.Property 0 (.ConstNum 1)) []
    ⟨.Identifier "b", ⟨1, 9⟩⟩
    [⟨.Punctuator .Colon, ⟨1, 10⟩⟩, ⟨.NumericLiteral 2, ⟨1, 12⟩⟩,
     ⟨.Punctuator .CloseBlock, ⟨1, 14⟩⟩]
    rfl rfl rfl).2 (by decide) (by decide)

/-- C10: an immediately following `\x7d` yields `Node::Object` with an
empty property list (for any accumulated elements the loop re-check
succeeds), and `\x7b a: 1, \x7d` parses to the same `Object` node as
`\x7b a: 1 \x7d`: after consuming a comma the loop re-checks for `\x7d`
before requiring another property. -/
theorem object_literal_empty_and_trailing_comma :
    (∀ (ay aa : Bool) (pos : Position) (rest : List Token) (itn : Interner),
      objectLiteralParse ay aa (⟨.Punctuator .CloseBlock, pos⟩ :: rest) itn =
        .ok (.Object [], rest, itn)) ∧
    objectLiteralParse false false
      [⟨.Identifier "a", ⟨1, 4⟩⟩, ⟨.Punctuator .Colon, ⟨1, 5⟩⟩,
       ⟨.NumericLiteral 1, ⟨1, 7⟩⟩, ⟨.Punctuator .CloseBlock, ⟨1, 9⟩⟩] ⟨[]⟩ =
      .ok (.Object [.Property 0 (.ConstNum 1)], [], ⟨["a"]⟩) ∧
    objectLiteralParse false false
      [⟨.Identifier "a", ⟨1, 4⟩⟩, ⟨.Punctuator .Colon, ⟨1, 5⟩⟩,
       ⟨.NumericLiteral 1, ⟨1, 7⟩⟩, ⟨.Punctuator .Comma, ⟨1, 8⟩⟩,
       ⟨.Punctuator .CloseBlock, ⟨1, 10⟩⟩] ⟨[]⟩ =
      .ok (.Object [.Property 0 (.ConstNum 1)], [], ⟨["a"]⟩) := by
  refine ⟨?_, rfl, rfl⟩
  intro ay aa pos rest itn
  simp [objectLiteralParse, objectLiteralLoop, next_if]

/-- C4 counterexample: parsing the object literal `\x7bget\x7d` does not
yield a shorthand property named `get`; the parser unconditionally enters
the accessor path and fails with `AbruptEnd`. -/
theorem object_get_shorthand_counterexample :
    objectLiteralParse false false
      [⟨.Identifier "get", ⟨1, 2⟩⟩, ⟨.Punctuator .CloseBlock, ⟨1, 5⟩⟩] ⟨[]⟩ =
      .error .AbruptEnd := rfl

/-- C4 (amended): when a property definition's leading token is not
followed by `:` or `(` and its symbol is the interned `"get"`, the parser
delegates to `MethodDefinition` unconditionally — no second token of
lookahead is consulted — and in particular `\x7bget\x7d` is a parse error
(`AbruptEnd`), not a shorthand property. -/
theorem property_get_unconditional_dispatch (ay aa : Bool) (tok : Token)
    (rest : List Token) (itn itn1 itn2 : Interner) (prop_name gsym : Sym)
    (h0 : tok.kind ≠ .Punctuator .Spread)
    (h1 : tok.to_string_sym itn = (prop_name, itn1))
    (h2 : next_if (.Punctuator .Colon) rest = none)
    (h3 : next_if (.Punctuator .OpenParen) rest = none)
    (h4 : itn1.get_or_intern "get" = (gsym, itn2))
    (h5 : prop_name = gsym) :
    propertyDefinitionParse ay aa (tok :: rest) itn =
      methodDefinition prop_name rest itn2 ∧
    objectLiteralParse false false
      [⟨.Identifier "get", ⟨1, 2⟩⟩, ⟨.Punctuator .CloseBlock, ⟨1, 5⟩⟩] ⟨[]⟩ =
      .error .AbruptEnd := by
  constructor
  · have hS : next_if (.Punctuator .Spread) (tok :: rest) = none := by
      simp [next_if, h0]
    simp only [propertyDefinitionParse, hS, h1, h2, h3, h4]
    rw [if_pos h5]
  · rfl

/-- Witness for C4 (amended): with `\x7bget\x7d`'s token stream the
property-definition parser hands off to `MethodDefinition` even though the
token after `get` is `\x7d`. -/
theorem property_get_unconditional_dispatch_witness :
    propertyDefinitionParse false false
      [⟨.Identifier "get", ⟨1, 2⟩⟩, ⟨.Punctuator .CloseBlock, ⟨1, 5⟩⟩] ⟨[]⟩ =
      methodDefinition 0 [⟨.Punctuator .CloseBlock, ⟨1, 5⟩⟩] ⟨["get"]⟩ :=
  (property_get_unconditional_dispatch false false ⟨.Identifier "get", ⟨1, 2⟩⟩
    [⟨.Punctuator .CloseBlock, ⟨1, 5⟩⟩] ⟨[]⟩ ⟨["get"]⟩ ⟨["get"]⟩ 0 0
    (by decide) rfl rfl rfl rfl rfl).1

/-- Helper: every `MethodDefinition` node emitted by the shared tail of
`MethodDefinition::parse` wraps `FunctionDecl(None, params, body)` around
exactly the parameter list the tail was given. -/
theorem methodDefinitionTail_shape (kind : MethodDefinitionKind) (name : Sym)
    (params : List FormalParameter) (ts : List Token) (itn : Interner)
    (pd : PropertyDefinition) (ts' : List Token) (itn' : Interner)
    (h : methodDefinitionTail kind name params ts itn = .ok (pd, ts', itn')) :
    ∃ body, pd = .MethodDefinition kind name (.FunctionDecl none params body) := by
  unfold methodDefinitionTail at h
  split at h
  · exact Except.noConfusion h
  · split at h
    · exact Except.noConfusion h
    · split at h
      · exact Except.noConfusion h
      · cases h; exact ⟨_, rfl⟩

/-- Helper: every property definition successfully returned by
`MethodDefinition::parse` satisfies the accessor-arity invariant: the
emptiness/singleton guards run before the `Get`/`Set` node is built. -/
theorem methodDefinition_arity (ident : Sym) (ts : List Token)
    (itn : Interner) (pd : PropertyDefinition) (ts' : List Token)
    (itn' : Interner)
    (h : methodDefinition ident ts itn = .ok (pd, ts', itn')) :
    accessorArityOK pd := by
  unfold methodDefinition at h
  iterate 20 (all_goals try (first | exact Except.noConfusion h | split at h))
  all_goals
    obtain ⟨body, rfl⟩ := methodDefinitionTail_shape _ _ _ _ _ _ _ _ h
  all_goals simp_all [accessorArityOK, List.isEmpty_iff, List.length_eq_one]

/-- Helper: every property definition successfully returned by
`PropertyDefinition::parse` satisfies the accessor-arity invariant
(spreads and `name: value` properties trivially, methods by
`methodDefinition_arity`). -/
theorem propertyDefinition_arity (ay aa : Bool) (ts : List Token)
    (itn : Interner) (pd : PropertyDefinition) (ts1 : List Token)
    (itn1 : Interner)
    (h : propertyDefinitionParse ay aa ts itn = .ok (pd, ts1, itn1)) :
    accessorArityOK pd := by
  unfold propertyDefinitionParse at h
  iterate 12 (all_goals try (first
    | exact Except.noConfusion h
    | exact methodDefinition_arity _ _ _ _ _ _ h
    | split at h))
  all_goals (cases h; simp [accessorArityOK])

/-- Helper: the object-literal loop preserves the accessor-arity invariant
from its accumulated elements to the final `Object` node. -/
theorem objectLiteralLoop_arity (fuel : Nat) :
    ∀ (ay aa : Bool) (ts : List Token) (itn : Interner)
      (acc props : List PropertyDefinition) (rest : List Token)
      (itn' : Interner),
      (∀ pd ∈ acc, accessorArityOK pd) →
      objectLiteralLoop fuel ay aa ts itn acc = .ok (.Object props, rest, itn') →
      ∀ pd ∈ props, accessorArityOK pd := by
  induction fuel with
  | zero =>
    intro ay aa ts itn acc props rest itn' hacc h
    exact Except.noConfusion h
  | succ fuel ih =>
    intro ay aa ts itn acc props rest itn' hacc h
    simp only [objectLiteralLoop] at h
    split at h
    · cases h; exact hacc
    · split at h
      · exact Except.noConfusion h
      next pd0 ts1 itn1 hpd =>
        split at h
        · cases h
          intro pd hpd2
          rcases List.mem_append.mp hpd2 with hl | hr
          · exact hacc pd hl
          · cases List.mem_singleton.mp hr
            exact propertyDefinition_arity _ _ _ _ _ _ _ hpd
        · split at h
          · refine ih _ _ _ _ _ _ _ _ ?_ h
            intro pd hpd2
            rcases List.mem_append.mp hpd2 with hl | hr
            · exact hacc pd hl
            · cases List.mem_singleton.mp hr
              exact propertyDefinition_arity _ _ _ _ _ _ _ hpd
          · split at h <;> exact Except.noConfusion h

/-- C2: in every AST produced by a successful object-literal parse, each
`MethodDefinition(Get, ...)` carries an empty formal-parameter list and
each `MethodDefinition(Set, ...)` carries exactly one parameter
(`accessorArityOK`). -/
theorem object_literal_accessor_arity (ay aa : Bool) (ts : List Token)
    (itn : Interner) (props : List PropertyDefinition) (rest : List Token)
    (itn' : Interner)
    (h : objectLiteralParse ay aa ts itn = .ok (.Object props, rest, itn')) :
    ∀ pd ∈ props, accessorArityOK pd :=
  objectLiteralLoop_arity _ _ _ _ _ _ _ _ _ (by simp) h

/-- Witness for C2: `\x7b get p() \x7b\x7d \x7d` parses successfully to a
`Get` method with zero parameters, and that method satisfies the
invariant. -/
theorem object_literal_accessor_arity_witness :
    accessorArityOK (.MethodDefinition .Get 1
      (.FunctionDecl none [] (.StatementList []))) :=
  object_literal_accessor_arity false false
    [⟨.Identifier "get", ⟨1, 4⟩⟩, ⟨.Identifier "p", ⟨1, 8⟩⟩,
     ⟨.Punctuator .OpenParen, ⟨1, 9⟩⟩, ⟨.Punctuator .CloseParen, ⟨1, 10⟩⟩,
     ⟨.Punctuator .OpenBlock, ⟨1, 12⟩⟩, ⟨.Punctuator .CloseBlock, ⟨1, 13⟩⟩,
     ⟨.Punctuator .CloseBlock, ⟨1, 15⟩⟩] ⟨[]⟩
    [.MethodDefinition .Get 1 (.FunctionDecl none [] (.StatementList []))]
    [] ⟨["get", "p"]⟩ rfl
    (.MethodDefinition .Get 1 (.FunctionDecl none [] (.StatementList [])))
    (by simp)

/-- Helper: the modelled `AssignmentExpression` never produces an
`Unexpected` error. -/
theorem assignmentExpression_no_unexpected (ai ay aa : Bool) (ts : List Token)
    (itn : Interner) (f : String) (p : Position) (h : Option String) :
    assignmentExpression ai ay aa ts itn ≠ .error (.Unexpected f p h) := by
  unfold assignmentExpression
  split
  · simp
  · split <;> simp [ParseError.general]

/-- Helper: `expect` never produces an `Unexpected` error. -/
theorem expect_no_unexpected (k : TokenKind) (ctx : String) (ts : List Token)
    (f : String) (p : Position) (h : Option String) :
    expect k ctx ts ≠ .error (.Unexpected f p h) := by
  unfold expect
  split
  · simp
  · split <;> simp

/-- Helper: the function-body loop never produces an `Unexpected` error. -/
theorem functionBodyLoop_no_unexpected (fuel : Nat) :
    ∀ (ts : List Token) (itn : Interner) (f : String) (p : Position)
      (h : Option String),
      functionBodyLoop fuel ts itn ≠ .error (.Unexpected f p h) := by
  induction fuel with
  | zero => intro ts itn f p h; simp [functionBodyLoop]
  | succ fuel ih =>
    intro ts itn f p h hcontra
    simp only [functionBodyLoop] at hcontra
    split at hcontra
    · simp at hcontra
    · split at hcontra
      · simp at hcontra
      · split at hcontra
        next e he =>
          simp only [Except.error.injEq] at hcontra
          subst hcontra
          exact assignmentExpression_no_unexpected _ _ _ _ _ _ _ _ he
        · split at hcontra
          next e he =>
            simp only [Except.error.injEq] at hcontra
            subst hcontra
            exact ih _ _ _ _ _ he
          · simp at hcontra

/-- Helper: the shared tail of `MethodDefinition::parse` never produces an
`Unexpected` error — so the accessor-arity `Unexpected` diagnostics can
come only from the arity guards themselves. -/
theorem methodDefinitionTail_no_unexpected (kind : MethodDefinitionKind)
    (name : Sym) (params : List FormalParameter) (ts : List Token)
    (itn : Interner) (f : String) (p : Position) (h : Option String) :
    methodDefinitionTail kind name params ts itn ≠
      .error (.Unexpected f p h) := by
  unfold methodDefinitionTail
  intro hcontra
  split at hcontra
  next e he =>
    simp only [Except.error.injEq] at hcontra
    subst hcontra
    exact expect_no_unexpected _ _ _ _ _ _ he
  · split at hcontra
    next e he =>
      simp only [Except.error.injEq] at hcontra
      subst hcontra
      exact functionBodyLoop_no_unexpected _ _ _ _ _ _ he
    · split at hcontra
      next e he =>
        simp only [Except.error.injEq] at hcontra
        subst hcontra
        exact expect_no_unexpected _ _ _ _ _ _ he
      · simp at hcontra

/-- C3: with an identifier hint resolving to `"get"`, `MethodDefinition`
returns the `Unexpected` error hinting "getter functions must have no
arguments" (at the remembered first-parameter token) exactly when the
parsed formal-parameter list is non-empty, and otherwise continues into
the shared tail emitting `MethodDefinitionKind::Get`; with `"set"`, the
"setter functions must have one argument" error appears exactly when the
list does not have one entry, and otherwise the tail emits
`MethodDefinitionKind::Set`. -/
theorem method_definition_accessor_arity_errors (ident prop_name : Sym)
    (ts rest rest1 rest2 rest3 : List Token)
    (itn itn1 itn2 : Interner) (nameTok first_param : Token)
    (params : List FormalParameter)
    (hts : ts = nameTok :: rest)
    (hsym : nameTok.to_string_sym itn = (prop_name, itn1))
    (hop : expect (.Punctuator .OpenParen) "property method definition" rest =
      .ok rest1)
    (hpk : rest1.head? = some first_param)
    (hfp : formalParametersParse rest1 itn1 = .ok (params, rest2, itn2))
    (hcp : expect (.Punctuator .CloseParen) "method definition" rest2 =
      .ok rest3) :
    (itn.resolve ident = some "get" →
      (methodDefinition ident ts itn =
          .error (.Unexpected first_param.display first_param.pos
            (some "getter functions must have no arguments")) ↔
        params ≠ []) ∧
      (params = [] →
        methodDefinition ident ts itn =
          methodDefinitionTail .Get prop_name params rest3 itn2) ∧
      (∀ pd ts' itn3, methodDefinition ident ts itn = .ok (pd, ts', itn3) →
        ∃ body, pd = .MethodDefinition .Get prop_name
          (.FunctionDecl none params body))) ∧
    (itn.resolve ident = some "set" →
      (methodDefinition ident ts itn =
          .error (.Unexpected first_param.display first_param.pos
            (some "setter functions must have one argument")) ↔
        params.length ≠ 1) ∧
      (params.length = 1 →
        methodDefinition ident ts itn =
          methodDefinitionTail .Set prop_name params rest3 itn2) ∧
      (∀ pd ts' itn3, methodDefinition ident ts itn = .ok (pd, ts', itn3) →
        ∃ body, pd = .MethodDefinition .Set prop_name
          (.FunctionDecl none params body))) := by
  subst hts
  constructor
  · intro hres
    have key : methodDefinition ident (nameTok :: rest) itn =
        if params.isEmpty then
          methodDefinitionTail .Get prop_name params rest3 itn2
        else
          .error (.Unexpected first_param.display first_param.pos
            (some "getter functions must have no arguments")) := by
      simp only [methodDefinition, hres, hsym, hop, hpk, hfp, hcp]
      simp [ParseError.unexpected]
    refine ⟨⟨?_, ?_⟩, ?_, ?_⟩
    · intro herr
      intro h0
      rw [h0] at key
      simp only [List.isEmpty_nil, if_true] at key
      rw [key] at herr
      exact methodDefinitionTail_no_unexpected _ _ _ _ _ _ _ _ herr
    · intro hne
      rw [key, if_neg (by simpa [List.isEmpty_iff] using hne)]
    · intro h0
      rw [key, if_pos (by simp [h0])]
    · intro pd ts' itn3 hok
      rw [key] at hok
      by_cases hemp : params.isEmpty
      · rw [if_pos hemp] at hok
        exact methodDefinitionTail_shape _ _ _ _ _ _ _ _ hok
      · rw [if_neg hemp] at hok
        exact Except.noConfusion hok
  · intro hres
    have key : methodDefinition ident (nameTok :: rest) itn =
        if params.length = 1 then
          methodDefinitionTail .Set prop_name params rest3 itn2
        else
          .error (.Unexpected first_param.display first_param.pos
            (some "setter functions must have one argument")) := by
      simp only [methodDefinition, hres, hsym, hop, hpk, hfp, hcp]
      simp [ParseError.unexpected]
    refine ⟨⟨?_, ?_⟩, ?_, ?_⟩
    · intro herr
      intro h0
      rw [if_pos h0] at key
      rw [key] at herr
      exact methodDefinitionTail_no_unexpected _ _ _ _ _ _ _ _ herr
    · intro hne
      rw [key, if_neg hne]
    · intro h0
      rw [key, if_pos h0]
    · intro pd ts' itn3 hok
      rw [key] at hok
      by_cases hlen : params.length = 1
      · rw [if_pos hlen] at hok
        exact methodDefinitionTail_shape _ _ _ _ _ _ _ _ hok
      · rw [if_neg hlen] at hok
        exact Except.noConfusion hok

/-- Witness for C3: `get p() \x7b\x7d` — the hint resolves to `"get"`, the
parameter list is empty, and the parser continues into the tail emitting
`Get`. -/
theorem method_definition_accessor_arity_errors_witness :
    methodDefinition 0
      [⟨.Identifier "p", ⟨1, 6⟩⟩, ⟨.Punctuator .OpenParen, ⟨1, 7⟩⟩,
       ⟨.Punctuator .CloseParen, ⟨1, 8⟩⟩, ⟨.Punctuator .OpenBlock, ⟨1, 10⟩⟩,
       ⟨.Punctuator .CloseBlock, ⟨1, 11⟩⟩] ⟨["get"]⟩ =
      methodDefinitionTail .Get 1 []
        [⟨.Punctuator .OpenBlock, ⟨1, 10⟩⟩, ⟨.Punctuator .CloseBlock, ⟨1, 11⟩⟩]
        ⟨["get", "p"]⟩ :=
  ((method_definition_accessor_arity_errors 0 1
    [⟨.Identifier "p", ⟨1, 6⟩⟩, ⟨.Punctuator .OpenParen, ⟨1, 7⟩⟩,
     ⟨.Punctuator .CloseParen, ⟨1, 8⟩⟩, ⟨.Punctuator .OpenBlock, ⟨1, 10⟩⟩,
     ⟨.Punctuator .CloseBlock, ⟨1, 11⟩⟩]
    [⟨.Punctuator .OpenParen, ⟨1, 7⟩⟩, ⟨.Punctuator .CloseParen, ⟨1, 8⟩⟩,
     ⟨.Punctuator .OpenBlock, ⟨1, 10⟩⟩, ⟨.Punctuator .CloseBlock, ⟨1, 11⟩⟩]
    [⟨.Punctuator .CloseParen, ⟨1, 8⟩⟩, ⟨.Punctuator .OpenBlock, ⟨1, 10⟩⟩,
     ⟨.Punctuator .CloseBlock, ⟨1, 11⟩⟩]
    [⟨.Punctuator .CloseParen, ⟨1, 8⟩⟩, ⟨.Punctuator .OpenBlock, ⟨1, 10⟩⟩,
     ⟨.Punctuator .CloseBlock, ⟨1, 11⟩⟩]
    [⟨.Punctuator .OpenBlock, ⟨1, 10⟩⟩, ⟨.Punctuator .CloseBlock, ⟨1, 11⟩⟩]
    ⟨["get"]⟩ ⟨["get", "p"]⟩ ⟨["get", "p"]⟩
    ⟨.Identifier "p", ⟨1, 6⟩⟩ ⟨.Punctuator .CloseParen, ⟨1, 8⟩⟩ []
    rfl rfl rfl rfl rfl rfl).1 rfl).2.1 rfl

end Boa
